import Mathlib

/-!
Shallow embedding of the FDMS → Notion synchronisation scripts
(users-sync-to-notion.py, fp-sync-to-notion.py, link-records.py) and a
verification of their reconciliation, pagination, retry, verification and
relation-ledger logic.

Conventions: Python scalars are modelled by `PyVal`; HTTP traffic is
modelled by feeding each network-touching loop an explicit list of
scripted server responses, returning `none` when the script is exhausted
(so theorems quantify over every finite interaction).
-/

/-- Python `str.strip()`: drop leading and trailing whitespace
characters (executable over the string's character list). -/
def pyStrip (s : String) : String :=
  String.mk (((s.data.dropWhile Char.isWhitespace).reverse.dropWhile
    Char.isWhitespace).reverse)

/-- Python `str.lower()` (ASCII case folding, which is all the scripts'
emails need). -/
def pyLower (s : String) : String :=
  String.mk (s.data.map Char.toLower)

/-- Python scalar values as they flow through the sync scripts:
None, strings, and integers. -/
inductive PyVal where
  | none
  | str (s : String)
  | int (n : Int)
deriving DecidableEq

/-- `normalize_value` from users-sync-to-notion.py: `None` becomes the
empty string, every other value is `str()`-converted and `.strip()`-ped. -/
def normalize_value : PyVal → String
  | PyVal.none => ""
  | PyVal.str s => pyStrip s
  | PyVal.int n => pyStrip (toString n)

/-- `values_are_equal` from users-sync-to-notion.py: compare two values
after normalisation, treating `None` and the empty string as equal. -/
def values_are_equal (val1 val2 : PyVal) : Bool :=
  normalize_value val1 == normalize_value val2

/-- Spec-side restatement of normalisation (for claim C9): `str()` the
value with `None` first replaced by the empty string. -/
def pyStrNone : PyVal → String
  | PyVal.none => ""
  | PyVal.str s => s
  | PyVal.int n => toString n

/-- Spec-side restatement of normalisation (for claim C9): replace `None`
by the empty string, then strip surrounding whitespace. -/
def normalize_spec (v : PyVal) : String := pyStrip (pyStrNone v)

theorem normalize_value_eq_spec (v : PyVal) :
    normalize_value v = normalize_spec v := by
  cases v
  · decide
  · rfl
  · rfl

/-- A MySQL row as selected by the users-sync query: identity `id` plus
the denormalised attribute columns. `department`/`college` keep the raw
(possibly `None`) value because the script compares and serialises them
as such; `status`/`chair_email` are `Option String` columns. -/
structure MysqlUser where
  id : Int
  first_name : PyVal
  last_name : PyVal
  email : PyVal
  department : PyVal
  college : PyVal
  status : Option String
  chair_email : Option String
deriving DecidableEq

/-- A Notion page of the faculty database, flattened the way
users-sync-to-notion.py reads it: `pageId` is `page['id']`;
`recordId` is `properties.id.number` (`none` models the access raising
`KeyError`); the select/rich-text fields that the script guards with
`.get` are `Option String` (`none` = property absent or no select). -/
structure NotionPage where
  pageId : String
  recordId : Option Int
  first_name : String
  last_name : String
  email : String
  department : Option String
  college : Option String
  status : Option String
  chair_email : Option String
deriving DecidableEq

/-- One step of building `notion_id_to_record_id` in users-sync
`main`: a plain dict assignment, so a later page with the same key
overwrites an earlier one; a page whose id property is missing is
skipped (its `KeyError` is printed). -/
def notionIndexStep (f : String → Option String) (p : NotionPage) :
    String → Option String :=
  match p.recordId with
  | some rid => fun k => if k = toString rid then some p.pageId else f k
  | none => f

/-- The `notion_id_to_record_id` dict of users-sync `main`, as the map
from stringified MySQL id to Notion page id. -/
def buildNotionIndexFn (pages : List NotionPage) : String → Option String :=
  pages.foldl notionIndexStep (fun _ => none)

/-- The pages reported while indexing: exactly those whose id property
access raises `KeyError` (the loop's only error output). -/
def indexErrors (pages : List NotionPage) : List NotionPage :=
  pages.filter (fun p => p.recordId.isNone)

/-- The in-place mutation at the top of the users-sync comparison loop:
a missing or `None` `chair_email` is replaced by the empty string. -/
def normChair (r : MysqlUser) : MysqlUser :=
  { r with chair_email := some (r.chair_email.getD "") }

/-- `update_needed` from users-sync `main`: the disjunction of the seven
field comparisons, each via `values_are_equal`, with the Notion side
defaulting absent select/rich-text fields to the empty string and the
MySQL side defaulting a falsy `status` to the empty string. -/
def updateNeeded (r : MysqlUser) (p : NotionPage) : Bool :=
  (!values_are_equal (PyVal.str p.first_name) r.first_name) ||
  (!values_are_equal (PyVal.str p.last_name) r.last_name) ||
  (!values_are_equal (PyVal.str p.email) r.email) ||
  (!values_are_equal (PyVal.str (p.department.getD "")) r.department) ||
  (!values_are_equal (PyVal.str (p.college.getD "")) r.college) ||
  (!values_are_equal (PyVal.str (p.status.getD "")) (PyVal.str (r.status.getD ""))) ||
  (!values_are_equal (PyVal.str (p.chair_email.getD "")) (PyVal.str (r.chair_email.getD "")))

/-- All seven field comparisons of users-sync `main` succeed. -/
def allFieldsEqual (r : MysqlUser) (p : NotionPage) : Bool :=
  values_are_equal (PyVal.str p.first_name) r.first_name &&
  values_are_equal (PyVal.str p.last_name) r.last_name &&
  values_are_equal (PyVal.str p.email) r.email &&
  values_are_equal (PyVal.str (p.department.getD "")) r.department &&
  values_are_equal (PyVal.str (p.college.getD "")) r.college &&
  values_are_equal (PyVal.str (p.status.getD "")) (PyVal.str (r.status.getD "")) &&
  values_are_equal (PyVal.str (p.chair_email.getD "")) (PyVal.str (r.chair_email.getD ""))

/-- The `update_records` list built by users-sync `main`: for each MySQL
record (after the in-place chair normalisation), look its stringified id
up in the index; on a hit, locate the page by page id (`next(...)`) and
append the pair `(notion page id, whole MySQL record)` when
`update_needed` holds. -/
def updateRecords (mysql_records : List MysqlUser) (notion_records : List NotionPage) :
    List (String × MysqlUser) :=
  mysql_records.filterMap (fun r0 =>
    match buildNotionIndexFn notion_records (toString (normChair r0).id) with
    | some pid =>
      match notion_records.find? (fun p => p.pageId == pid) with
      | some p =>
        if updateNeeded (normChair r0) p then some (pid, normChair r0) else none
      | none => none
    | none => none)

/-- The `new_records` list built by users-sync `main`: MySQL records
whose stringified id misses the Notion index. -/
def newRecords (mysql_records : List MysqlUser) (notion_records : List NotionPage) :
    List MysqlUser :=
  mysql_records.filterMap (fun r0 =>
    match buildNotionIndexFn notion_records (toString (normChair r0).id) with
    | some _ => none
    | none => some (normChair r0))

/-- A remote mutation the users-sync run can issue against Notion. The
HTTP client offers page update (PATCH), page creation (POST) and —
as an API capability the scripts never invoke — page deletion/archival. -/
inductive Mutation where
  | update (pageId : String) (r : MysqlUser)
  | create (r : MysqlUser)
  | delete (pageId : String)
deriving DecidableEq

/-- The sequence of remote mutations issued by one users-sync run:
the confirmation prompts empty the respective batch when declined,
then every update and every insert is sent. -/
def userSyncMutations (mysql_records : List MysqlUser) (notion_records : List NotionPage)
    (confirmUpdates confirmInserts : Bool) : List Mutation :=
  (if confirmUpdates then updateRecords mysql_records notion_records else []).map
      (fun x => Mutation.update x.1 x.2)
    ++ (if confirmInserts then newRecords mysql_records notion_records else []).map
      Mutation.create

/-- The property names present in the body `update_notion_record` in
users-sync-to-notion.py PATCHes: the five base properties always, and
`department`/`college`/`Status` exactly when the MySQL value is not
`None`. -/
def updatePayloadProps (r : MysqlUser) : List String :=
  ["email", "first_name", "last_name", "id", "chair_email"]
    ++ (match r.department with | PyVal.none => [] | _ => ["department"])
    ++ (match r.college with | PyVal.none => [] | _ => ["college"])
    ++ (match r.status with | none => [] | some _ => ["Status"])

/-- Spec-side helper: which of the seven compared fields actually
mismatch between a MySQL record and a Notion page (in the comparison
order of the script). -/
def mismatchedFields (r : MysqlUser) (p : NotionPage) : List String :=
  (if values_are_equal (PyVal.str p.first_name) r.first_name then [] else ["first_name"]) ++
  (if values_are_equal (PyVal.str p.last_name) r.last_name then [] else ["last_name"]) ++
  (if values_are_equal (PyVal.str p.email) r.email then [] else ["email"]) ++
  (if values_are_equal (PyVal.str (p.department.getD "")) r.department then [] else ["department"]) ++
  (if values_are_equal (PyVal.str (p.college.getD "")) r.college then [] else ["college"]) ++
  (if values_are_equal (PyVal.str (p.status.getD "")) (PyVal.str (r.status.getD "")) then [] else ["status"]) ++
  (if values_are_equal (PyVal.str (p.chair_email.getD "")) (PyVal.str (r.chair_email.getD "")) then [] else ["chair_email"])

/-- C7: `values_are_equal(None, "")` is `True`; any two values with equal
normalised forms compare equal; and a record all of whose seven fields
compare equal is classified unchanged (`update_needed` is false), so no
update is emitted for it. The `""` vs `None` direction is shown both
ways, covering the spec's `Time` scenario at the comparison level. -/
theorem C7_null_empty_equal :
    values_are_equal PyVal.none (PyVal.str "") = true
    ∧ values_are_equal (PyVal.str "") PyVal.none = true
    ∧ (∀ a b, normalize_value a = normalize_value b → values_are_equal a b = true)
    ∧ (∀ r p, allFieldsEqual r p = true → updateNeeded r p = false) := by
  refine ⟨by decide, by decide, ?_, ?_⟩
  · intro a b h
    simp [values_are_equal, h]
  · intro r p h
    simp only [allFieldsEqual, Bool.and_eq_true] at h
    obtain ⟨⟨⟨⟨⟨⟨h1, h2⟩, h3⟩, h4⟩, h5⟩, h6⟩, h7⟩ := h
    simp [updateNeeded, h1, h2, h3, h4, h5, h6, h7]

/-- Witness for C7: a concrete record/page pair whose fields all compare
equal is reported as not needing an update. -/
theorem C7_null_empty_equal_witness :
    updateNeeded
      (MysqlUser.mk 7 (PyVal.str "Ann") (PyVal.str "Lee") (PyVal.str "a@x.edu")
        PyVal.none PyVal.none none none)
      (NotionPage.mk "pg" (some 7) "Ann" "Lee" "a@x.edu" none none none none)
      = false :=
  C7_null_empty_equal.2.2.2
    (MysqlUser.mk 7 (PyVal.str "Ann") (PyVal.str "Lee") (PyVal.str "a@x.edu")
      PyVal.none PyVal.none none none)
    (NotionPage.mk "pg" (some 7) "Ann" "Lee" "a@x.edu" none none none none)
    (by decide)

/-- C9: `values_are_equal` holds exactly when the two values, with `None`
replaced by the empty string, `str()`-converted and stripped, coincide;
hence it is an equivalence relation, is case-sensitive, ignores
surrounding whitespace, and equates a number with its decimal string. -/
theorem C9_values_are_equal_characterization :
    (∀ a b, values_are_equal a b = true ↔ normalize_spec a = normalize_spec b)
    ∧ Equivalence (fun a b => values_are_equal a b = true)
    ∧ values_are_equal (PyVal.str "A") (PyVal.str "a") = false
    ∧ values_are_equal (PyVal.str " x ") (PyVal.str "x") = true
    ∧ values_are_equal (PyVal.int 1) (PyVal.str "1") = true := by
  have hiff : ∀ a b, values_are_equal a b = true ↔ normalize_spec a = normalize_spec b := by
    intro a b
    simp only [values_are_equal, normalize_value_eq_spec]
    exact beq_iff_eq
  refine ⟨hiff, ⟨?_, ?_, ?_⟩, by decide, by decide, by decide⟩
  · intro a
    exact (hiff a a).mpr rfl
  · intro a b h
    exact (hiff b a).mpr ((hiff a b).mp h).symm
  · intro a b c h1 h2
    exact (hiff a c).mpr (((hiff a b).mp h1).trans ((hiff b c).mp h2))

/-- Witness for C9: instantiating the characterisation at two values that
differ only in surrounding whitespace. -/
theorem C9_values_are_equal_witness :
    values_are_equal (PyVal.str "ab") (PyVal.str " ab ") = true :=
  (C9_values_are_equal_characterization.1 (PyVal.str "ab") (PyVal.str " ab ")).mpr
    (by decide)

/-- A row of the faculty_program query in fp-sync-to-notion.py. -/
structure FpRecord where
  user_id : Int
  program_id : Int
  synced_to_notion : Bool
  email : String
  longName : String
  time : Option String
  dateTaken : String
  category : String
deriving DecidableEq

/-- A Notion page of the faculty-program database as fp-sync reads it:
`userIdTitle` is the first title fragment of `user_id` (`none` when the
title is empty or absent), `programIdNum` the `program_id` number
(`none` when the property has no number). -/
structure FpPage where
  pageId : String
  userIdTitle : Option String
  programIdNum : Option Int
deriving DecidableEq

/-- The `(str(user_id), program_id)` key under which fp-sync indexes a
MySQL record. -/
def fpKey (r : FpRecord) : String × Int := (toString r.user_id, r.program_id)

/-- One step of building `notion_lookup` in `run_full_validation`: a
plain dict assignment keyed by (title content, number); pages failing
the property guard are skipped. -/
def fpLookupStep (f : String × Int → Option FpPage) (p : FpPage) :
    String × Int → Option FpPage := fun k =>
  match p.userIdTitle, p.programIdNum with
  | some u, some n => if k = (u, n) then some p else f k
  | _, _ => f k

/-- The `notion_lookup` dict of `run_full_validation`. -/
def buildFpLookup (pages : List FpPage) : String × Int → Option FpPage :=
  pages.foldl fpLookupStep (fun _ => none)

/-- The `mysql_lookup.items()` traversal of `run_full_validation`: one
record per distinct key, in order of first key insertion, holding the
last record stored under that key. -/
def fpMysqlItems (ms : List FpRecord) : List FpRecord :=
  (ms.foldl (fun (acc : List (String × Int)) r =>
      if fpKey r ∈ acc then acc else acc ++ [fpKey r]) []).filterMap
    (fun k => ms.reverse.find? (fun r => fpKey r == k))

/-- The `new_records` of `run_full_validation`: MySQL items whose key is
absent from the Notion lookup. -/
def fpNewRecords (ms : List FpRecord) (pages : List FpPage) : List FpRecord :=
  (fpMysqlItems ms).filter (fun r => (buildFpLookup pages (fpKey r)).isNone)

/-- A remote mutation fp-sync could issue (create is the only kind
`run_full_validation` ever performs; update/delete exist as API
capabilities). -/
inductive FpMutation where
  | create (r : FpRecord)
  | update (pageId : String)
  | delete (pageId : String)
deriving DecidableEq

/-- The remote mutations issued by `run_full_validation`: one create per
new record; orphaned Notion pages are only logged. -/
def fpFullValidationMutations (ms : List FpRecord) (pages : List FpPage) :
    List FpMutation :=
  (fpNewRecords ms pages).map FpMutation.create

/-- Folding the users-sync index over pages none of which carry key `k`
leaves the lookup at `k` unchanged. -/
theorem foldIndex_no_key (ps : List NotionPage) (f : String → Option String)
    (k : String)
    (h : ∀ q ∈ ps, ∀ rid : Int, q.recordId = some rid → toString rid ≠ k) :
    ps.foldl notionIndexStep f k = f k := by
  induction ps generalizing f with
  | nil => rfl
  | cons p rest ih =>
    rw [List.foldl_cons, ih _ (fun q hq => h q (List.mem_cons_of_mem _ hq))]
    unfold notionIndexStep
    cases hrid : p.recordId with
    | none => rfl
    | some rid =>
      have hne : toString rid ≠ k := h p (List.mem_cons_self _ _) rid hrid
      simp only
      exact if_neg (fun he => hne he.symm)

/-- Any hit in the users-sync index comes from some page bearing that
key (or from the initial map). -/
theorem foldIndex_sound (ps : List NotionPage) (f : String → Option String)
    (k pid : String) (h : ps.foldl notionIndexStep f k = some pid) :
    (∃ p ∈ ps, ∃ rid : Int, p.recordId = some rid ∧ toString rid = k ∧
      p.pageId = pid) ∨ f k = some pid := by
  induction ps generalizing f with
  | nil => exact Or.inr h
  | cons p rest ih =>
    rw [List.foldl_cons] at h
    rcases ih _ h with hq | hf
    · obtain ⟨q, hq1, rid, h1, h2, h3⟩ := hq
      exact Or.inl ⟨q, List.mem_cons_of_mem _ hq1, rid, h1, h2, h3⟩
    · unfold notionIndexStep at hf
      cases hrid : p.recordId with
      | none => rw [hrid] at hf; exact Or.inr hf
      | some rid =>
        rw [hrid] at hf
        simp only at hf
        by_cases hk : k = toString rid
        · rw [if_pos hk] at hf
          exact Or.inl ⟨p, List.mem_cons_self _ _, rid, hrid, hk.symm,
            Option.some.inj hf⟩
        · rw [if_neg hk] at hf
          exact Or.inr hf

/-- Every entry of `update_records` is the whole (chair-normalised)
MySQL record, paired with the page id its key maps to in the index. -/
theorem updateRecords_mem {ms : List MysqlUser} {ps : List NotionPage}
    {pid : String} {r : MysqlUser} (h : (pid, r) ∈ updateRecords ms ps) :
    ∃ r0 ∈ ms, r = normChair r0 ∧
      buildNotionIndexFn ps (toString r0.id) = some pid := by
  unfold updateRecords at h
  rw [List.mem_filterMap] at h
  obtain ⟨r0, hmem, hg⟩ := h
  refine ⟨r0, hmem, ?_⟩
  split at hg
  case h_2 => exact absurd hg (by simp)
  case h_1 pid' hidx =>
    split at hg
    case h_2 => exact absurd hg (by simp)
    case h_1 p hfind =>
      split at hg
      case isFalse => exact absurd hg (by simp)
      case isTrue =>
        obtain ⟨h1, h2⟩ := Prod.mk.inj (Option.some.inj hg)
        exact ⟨h2.symm, h1 ▸ hidx⟩

/-- Every update mutation a users-sync run issues targets the record the
index maps its key to, and carries a whole MySQL record from the fetched
snapshot. -/
theorem update_mem_spec {ms : List MysqlUser} {ps : List NotionPage}
    {cu ci : Bool} {pid : String} {r : MysqlUser}
    (h : Mutation.update pid r ∈ userSyncMutations ms ps cu ci) :
    ∃ r0 ∈ ms, r = normChair r0 ∧
      buildNotionIndexFn ps (toString r0.id) = some pid := by
  unfold userSyncMutations at h
  rw [List.mem_append] at h
  rcases h with h | h
  · rw [List.mem_map] at h
    obtain ⟨x, hx, heq⟩ := h
    obtain ⟨h1, h2⟩ := Mutation.update.inj heq
    by_cases hcu : cu
    · rw [if_pos hcu] at hx
      have : (pid, r) ∈ updateRecords ms ps := by
        have hx' : x = (pid, r) := Prod.ext h1 h2
        exact hx' ▸ hx
      exact updateRecords_mem this
    · rw [if_neg hcu] at hx
      exact absurd hx (List.not_mem_nil x)
  · rw [List.mem_map] at h
    obtain ⟨x, _, heq⟩ := h
    exact absurd heq (by simp)

/-- Concrete remote page: first page carrying MySQL key 7. -/
def uPageA : NotionPage :=
  NotionPage.mk "A" (some 7) "F" "L" "e@x" none none none none

/-- Concrete remote page: second page carrying the same MySQL key 7. -/
def uPageB : NotionPage :=
  NotionPage.mk "B" (some 7) "F2" "L2" "e2@x" none none none none

/-- Concrete fp-sync pages sharing the key (u1, 2). -/
def fpPageA : FpPage := FpPage.mk "A2" (some "u1") (some 2)

/-- Second fp-sync page with the same key as `fpPageA`. -/
def fpPageB : FpPage := FpPage.mk "B2" (some "u1") (some 2)

/-- C1 is false on the code: with two remote pages sharing one key, both
index builds map the key to the page encountered LAST, not first, and
the indexing loop reports nothing for the collision (its error list
covers only pages with a missing id property). -/
theorem C1_last_wins_counterexample :
    buildNotionIndexFn [uPageA, uPageB] "7" = some "B"
    ∧ buildNotionIndexFn [uPageA, uPageB] "7" ≠ some "A"
    ∧ indexErrors [uPageA, uPageB] = []
    ∧ (buildFpLookup [fpPageA, fpPageB] ("u1", 2)).map FpPage.pageId = some "B2"
    ∧ (buildFpLookup [fpPageA, fpPageB] ("u1", 2)).map FpPage.pageId ≠ some "A2" := by
  decide

/-- C1 amended: on a remote key collision the LAST page encountered
during indexing wins the match; every update mutation targets the index
winner for its key (so overwritten earlier pages are never matched or
mutated); and the indexing loop reports only pages whose id property is
missing — duplicate keys produce no anomaly report. -/
theorem C1_duplicate_key_last_wins :
    (∀ (pre post : List NotionPage) (p : NotionPage) (rid : Int),
        p.recordId = some rid →
        (∀ q ∈ post, ∀ rq : Int, q.recordId = some rq → toString rq ≠ toString rid) →
        buildNotionIndexFn (pre ++ p :: post) (toString rid) = some p.pageId)
    ∧ (∀ ms ps cu ci pid r, Mutation.update pid r ∈ userSyncMutations ms ps cu ci →
        buildNotionIndexFn ps (toString r.id) = some pid)
    ∧ (∀ ps p, p ∈ indexErrors ps ↔ p ∈ ps ∧ p.recordId = none) := by
  refine ⟨?_, ?_, ?_⟩
  · intro pre post p rid hrid hpost
    unfold buildNotionIndexFn
    rw [List.foldl_append, List.foldl_cons,
      foldIndex_no_key post _ _ hpost]
    unfold notionIndexStep
    rw [hrid]
    simp
  · intro ms ps cu ci pid r h
    obtain ⟨r0, _, hre, hidx⟩ := update_mem_spec h
    have : r.id = r0.id := by rw [hre]; rfl
    rw [this]
    exact hidx
  · intro ps p
    simp [indexErrors, List.mem_filter, Option.isNone_iff_eq_none]

/-- Witness for the amended C1: a single page with key 7 is the last
(and only) one, so the index maps key 7 to it. -/
theorem C1_duplicate_key_last_wins_witness :
    buildNotionIndexFn ([] ++ uPageA :: []) (toString (7 : Int)) = some "A" :=
  C1_duplicate_key_last_wins.1 [] [] uPageA 7 rfl
    (fun q hq => absurd hq (List.not_mem_nil q))

/-- Concrete MySQL record for C4; it differs from `uC4Page` only in
`first_name`. -/
def uC4Record : MysqlUser :=
  MysqlUser.mk 7 (PyVal.str "Ann") (PyVal.str "Lee") (PyVal.str "a@x.edu")
    (PyVal.str "Math") (PyVal.str "NSS") (some "Prof") (some "c@x.edu")

/-- Concrete Notion page matching `uC4Record` except `first_name`. -/
def uC4Page : NotionPage :=
  NotionPage.mk "pg1" (some 7) "Anne" "Lee" "a@x.edu" (some "Math")
    (some "NSS") (some "Prof") (some "c@x.edu")

/-- C4 is false on the code: for a source/remote pair mismatching in
exactly `first_name`, the resulting update entry carries the whole
record (no field diff), and the PATCH payload includes `last_name` (and
every other base property) although it did not mismatch. -/
theorem C4_full_payload_counterexample :
    mismatchedFields (normChair uC4Record) uC4Page = ["first_name"]
    ∧ updateRecords [uC4Record] [uC4Page] = [("pg1", normChair uC4Record)]
    ∧ "last_name" ∈ updatePayloadProps (normChair uC4Record)
    ∧ "last_name" ∉ mismatchedFields (normChair uC4Record) uC4Page := by
  decide

/-- C4 amended: an update entry carries the entire (chair-normalised)
source record rather than a field-level diff, and the PATCH body always
contains the five base properties, plus `department`/`college`/`Status`
exactly when the source value is not `None` — independent of which
fields mismatched. -/
theorem C4_update_payload_amended :
    (∀ r : MysqlUser,
        "email" ∈ updatePayloadProps r ∧ "first_name" ∈ updatePayloadProps r ∧
        "last_name" ∈ updatePayloadProps r ∧ "id" ∈ updatePayloadProps r ∧
        "chair_email" ∈ updatePayloadProps r ∧
        ("department" ∈ updatePayloadProps r ↔ r.department ≠ PyVal.none) ∧
        ("college" ∈ updatePayloadProps r ↔ r.college ≠ PyVal.none) ∧
        ("Status" ∈ updatePayloadProps r ↔ r.status ≠ none))
    ∧ (∀ ms ps pid r, (pid, r) ∈ updateRecords ms ps → ∃ r0 ∈ ms, r = normChair r0) := by
  constructor
  · intro r
    rcases hd : r.department with _ | s | n <;>
      rcases hc : r.college with _ | s2 | n2 <;>
      rcases hs : r.status with _ | st <;>
      simp [updatePayloadProps, hd, hc, hs]
  · intro ms ps pid r h
    obtain ⟨r0, hmem, hre, _⟩ := updateRecords_mem h
    exact ⟨r0, hmem, hre⟩

/-- Witness for the amended C4: the concrete update entry for
`uC4Record` is the whole normalised record. -/
theorem C4_update_payload_amended_witness :
    ∃ r0 ∈ [uC4Record], normChair uC4Record = normChair r0 :=
  C4_update_payload_amended.2 [uC4Record] [uC4Page] "pg1" (normChair uC4Record)
    (by decide)

/-- Concrete orphaned remote page (key 9, absent from the source). -/
def uOrphanPage : NotionPage :=
  NotionPage.mk "P" (some 9) "O" "R" "o@x" none none none none

/-- C5: a users-sync run issues no delete mutation at all; no update
ever targets a remote page whose key is absent from the source snapshot
(orphans are only reported); and every fp-sync full-validation mutation
is a creation. -/
theorem C5_orphans_never_mutated :
    (∀ ms ps cu ci m, m ∈ userSyncMutations ms ps cu ci →
        ∀ pid, m ≠ Mutation.delete pid)
    ∧ (∀ ms ps cu ci (p : NotionPage), (ps.map NotionPage.pageId).Nodup →
        p ∈ ps →
        (∀ rid : Int, p.recordId = some rid →
          toString rid ∉ ms.map (fun r0 => toString r0.id)) →
        ∀ r, Mutation.update p.pageId r ∉ userSyncMutations ms ps cu ci)
    ∧ (∀ fpms fpps m, m ∈ fpFullValidationMutations fpms fpps →
        ∃ r, m = FpMutation.create r) := by
  refine ⟨?_, ?_, ?_⟩
  · intro ms ps cu ci m hm pid
    unfold userSyncMutations at hm
    rw [List.mem_append] at hm
    rcases hm with hm | hm <;> rw [List.mem_map] at hm <;>
      obtain ⟨x, _, heq⟩ := hm <;> rw [← heq] <;> simp
  · intro ms ps cu ci p hnodup hp horphan r hmem
    obtain ⟨r0, hr0, hre, hidx⟩ := update_mem_spec hmem
    rcases foldIndex_sound ps _ _ _ hidx with hq | hbase
    · obtain ⟨q, hqmem, rid, hqrid, hqk, hqpid⟩ := hq
      have hqp : q = p := List.inj_on_of_nodup_map hnodup hqmem hp hqpid
      subst hqp
      have : toString rid ∈ ms.map (fun r1 => toString r1.id) :=
        hqk ▸ List.mem_map.mpr ⟨r0, hr0, rfl⟩
      exact horphan rid hqrid this
    · exact absurd hbase (by simp)
  · intro fpms fpps m hm
    unfold fpFullValidationMutations at hm
    rw [List.mem_map] at hm
    obtain ⟨r, _, heq⟩ := hm
    exact ⟨r, heq.symm⟩

/-- Witness for C5: against an empty source snapshot, the concrete
orphaned page receives no update mutation. -/
theorem C5_orphans_never_mutated_witness :
    Mutation.update "P" uC4Record ∉ userSyncMutations [] [uOrphanPage] true true :=
  C5_orphans_never_mutated.2.1 [] [uOrphanPage] true true uOrphanPage
    (by decide) (by decide)
    (fun rid _ => List.not_mem_nil (toString rid)) uC4Record

/-- Result of the read-back GET in `verify_notion_record_exists`:
either a 200 with the stored identity fields (title content of
`user_id`, number of `program_id`), a non-200 status, or an exception
while fetching/parsing. -/
inductive ReadBackResult where
  | ok (notionUserId : String) (notionProgramId : Int)
  | httpError (status : Nat)
  | exn
deriving DecidableEq

/-- `verify_notion_record_exists` from fp-sync-to-notion.py: true iff
the read-back returned 200 and the stored identity fields equal
`str(record.user_id)` and `record.program_id`; any non-200 status or
exception yields false. -/
def verify_notion_record_exists (rb : ReadBackResult) (record : FpRecord) : Bool :=
  match rb with
  | ReadBackResult.ok nuid npid =>
      toString record.user_id == nuid && record.program_id == npid
  | ReadBackResult.httpError _ => false
  | ReadBackResult.exn => false

/-- `validate_notion_receipt` from fp-sync-to-notion.py. The create
response is `some notionId` when the transport-level call returned a
body containing an id, else `none`; `rb` maps a notion id to its
read-back outcome; `markOk` is whether the MySQL `synced_to_notion`
UPDATE succeeds. Returns (overall result, whether
`mark_record_as_synced` was invoked). -/
def validate_notion_receipt (record : FpRecord) (resp : Option String)
    (rb : String → ReadBackResult) (markOk : Bool) : Bool × Bool :=
  match resp with
  | none => (false, false)
  | some nid =>
      if verify_notion_record_exists (rb nid) record then (markOk, true)
      else (false, false)

/-- C3: the synced flag is touched only when the create response carried
an id AND the read-back returned 200 with identity fields exactly equal
to the expected `str(user_id)` / `program_id`; when the read-back fails
or mismatches — or the create response had no id — the record is
recorded as failed and `mark_record_as_synced` is never called. -/
theorem C3_verification_gate (record : FpRecord) (resp : Option String)
    (rb : String → ReadBackResult) (markOk : Bool) :
    ((validate_notion_receipt record resp rb markOk).2 = true →
      ∃ nid, resp = some nid ∧
        rb nid = ReadBackResult.ok (toString record.user_id) record.program_id)
    ∧ (∀ nid, resp = some nid →
        verify_notion_record_exists (rb nid) record = false →
        validate_notion_receipt record resp rb markOk = (false, false))
    ∧ (resp = none →
        validate_notion_receipt record resp rb markOk = (false, false)) := by
  refine ⟨?_, ?_, ?_⟩
  · intro hmark
    cases hresp : resp with
    | none => rw [hresp] at hmark; exact absurd hmark (by simp [validate_notion_receipt])
    | some nid =>
      refine ⟨nid, rfl, ?_⟩
      rw [hresp] at hmark
      simp only [validate_notion_receipt] at hmark
      by_cases hv : verify_notion_record_exists (rb nid) record = true
      · cases hrb : rb nid with
        | ok nuid npid =>
          rw [hrb] at hv
          unfold verify_notion_record_exists at hv
          rw [Bool.and_eq_true] at hv
          obtain ⟨h1, h2⟩ := hv
          rw [eq_of_beq h1, eq_of_beq h2]
        | httpError s => rw [hrb] at hv; exact absurd hv (by simp [verify_notion_record_exists])
        | exn => rw [hrb] at hv; exact absurd hv (by simp [verify_notion_record_exists])
      · rw [if_neg hv] at hmark
        exact absurd hmark (by simp)
  · intro nid hresp hv
    rw [hresp]
    simp only [validate_notion_receipt]
    rw [if_neg (by rw [hv]; simp)]
  · intro hresp
    rw [hresp]
    rfl

/-- Concrete record for the C3 witness. -/
def fpC3Record : FpRecord :=
  FpRecord.mk 3 4 false "a@x.edu" "Prog" none "2024-01-01" "Cat"

/-- Witness for C3: a transport-success create whose read-back returns
mismatched identity fields is recorded as failed and does not touch the
synced flag. -/
theorem C3_verification_gate_witness :
    validate_notion_receipt fpC3Record (some "N1")
      (fun _ => ReadBackResult.ok "9" 4) true = (false, false) :=
  (C3_verification_gate fpC3Record (some "N1")
      (fun _ => ReadBackResult.ok "9" 4) true).2.1 "N1" rfl (by decide)

/-- A scripted response to one paginated query POST in fp-sync's
`fetch_notion_records`: a rate-limit/gateway status (429/504), a good
page (results, has_more, next_cursor), a non-retryable HTTP error, a
JSON decode error, or another exception. -/
inductive NotionResp where
  | rate (status retryAfter : Nat)
  | ok (results : List String) (hasMore : Bool) (nextCursor : Option String)
  | httpErr
  | jsonErr
  | otherErr
deriving DecidableEq

/-- Outcome of `fetch_notion_records`: the complete record list, or the
`exit(1)` abort taken when the loop ended with `has_more` still true. -/
inductive FetchOutcome where
  | success (records : List String)
  | aborted
deriving DecidableEq

/-- The pagination loop of fp-sync `fetch_notion_records`
(production flags: TEST_MODE off). State: remaining scripted responses,
`retry_attempts` (max 5), `has_more`, accumulated records. Returns the
final (has_more, records) pair, or `none` if the response script ran
out while the loop still wanted pages. -/
def fetchLoop : List NotionResp → Nat → Bool → List String →
    Option (Bool × List String)
  | _, _, false, acc => some (false, acc)
  | [], _, true, _ => none
  | r :: rest, retries, true, acc =>
    match r with
    | NotionResp.rate _ _ =>
        if retries + 1 > 5 then some (true, acc)
        else fetchLoop rest (retries + 1) true acc
    | NotionResp.ok results hm _ => fetchLoop rest 0 hm (acc ++ results)
    | NotionResp.httpErr => some (true, acc)
    | NotionResp.jsonErr => some (true, acc)
    | NotionResp.otherErr => some (true, acc)

/-- `fetch_notion_records` from fp-sync-to-notion.py: run the loop; if
`has_more` is still true afterwards, `exit(1)`, else return the
records. -/
def fetch_notion_records (resps : List NotionResp) : Option FetchOutcome :=
  (fetchLoop resps 0 true []).map
    (fun x => if x.1 then FetchOutcome.aborted else FetchOutcome.success x.2)

/-- If the script never carries an explicit has_more=false page, the
fp-sync fetch loop never finishes with has_more=false. -/
theorem fetchLoop_no_terminal (resps : List NotionResp)
    (h : ∀ rs c, NotionResp.ok rs false c ∉ resps) :
    ∀ retries acc recs, fetchLoop resps retries true acc ≠ some (false, recs) := by
  induction resps with
  | nil => intro retries acc recs heq; exact absurd heq (by simp [fetchLoop])
  | cons r rest ih =>
    intro retries acc recs heq
    have htail : ∀ rs c, NotionResp.ok rs false c ∉ rest :=
      fun rs c hmem => h rs c (List.mem_cons_of_mem _ hmem)
    cases r with
    | rate s t =>
      rw [fetchLoop] at heq
      by_cases hb : retries + 1 > 5
      · rw [if_pos hb] at heq
        exact absurd (Prod.mk.inj (Option.some.inj heq)).1 (by simp)
      · rw [if_neg hb] at heq
        exact ih htail _ _ _ heq
    | ok results hm c =>
      cases hm with
      | false => exact h results c (List.mem_cons_self _ _)
      | true =>
        rw [fetchLoop] at heq
        exact ih htail _ _ _ heq
    | httpErr =>
      rw [fetchLoop] at heq
      exact absurd (Prod.mk.inj (Option.some.inj heq)).1 (by simp)
    | jsonErr =>
      rw [fetchLoop] at heq
      exact absurd (Prod.mk.inj (Option.some.inj heq)).1 (by simp)
    | otherErr =>
      rw [fetchLoop] at heq
      exact absurd (Prod.mk.inj (Option.some.inj heq)).1 (by simp)

/-- One parsed response body in link-records.py `main`'s fetch loops:
whether the dict has a `results` field, the results, `has_more`, and
`next_cursor`. -/
structure LRData where
  hasResults : Bool
  results : List String
  hasMore : Bool
  nextCursor : Option String
deriving DecidableEq

/-- One `query_database` call in link-records.py: either it returns a
parsed body, or its internal bounded retry loop is exhausted and it
raises (`Exception` propagating out of `main`). -/
inductive QueryResult where
  | data (d : LRData)
  | raise
deriving DecidableEq

/-- The record-fetch loop of link-records.py `main` (used identically
for faculty and program records): `while True`, call `query_database`
(a raise propagates, aborting the run — inner `none`); `break` and
CONTINUE the run with the partial list if the body has no `results`
field; extend; `break` normally when `has_more` is falsy. Outer `none`
models script exhaustion. -/
def lrFetchRecords : List QueryResult → List String →
    Option (Option (List String))
  | [], _ => none
  | QueryResult.raise :: _, _ => some none
  | QueryResult.data d :: rest, acc =>
      if !d.hasResults then some (some acc)
      else if !d.hasMore then some (some (acc ++ d.results))
      else lrFetchRecords rest (acc ++ d.results)

/-- C2 is false on the code: in link-records.py a response body lacking
the `results` field breaks the pagination loop and the run CONTINUES on
the partial record set — here the first page said has_more=true, the
second response is malformed, and the loop hands back the partial
list instead of aborting. -/
theorem C2_malformed_break_counterexample :
    lrFetchRecords
      [QueryResult.data (LRData.mk true ["f1"] true (some "c")),
       QueryResult.data (LRData.mk false [] true none)] []
      = some (some ["f1"])
    ∧ some (some ["f1"]) ≠ (some none : Option (Option (List String))) := by
  refine ⟨rfl, by simp⟩

/-- C2 amended: fp-sync's `fetch_notion_records` can only return a
record set when the server explicitly signalled no more pages — every
other loop exit (retry exhaustion, HTTP/JSON/other error) aborts via
`exit(1)`. In link-records, a `query_database` retry exhaustion also
aborts the run, but the loop additionally returns normally — run
continuing on partial data — when a response lacks `results`; a normal
return is possible only via a missing-`results` break or an explicit
has_more=false page. -/
theorem C2_completeness_or_abort_amended :
    (∀ (resps : List NotionResp) (recs : List String),
        (∀ rs c, NotionResp.ok rs false c ∉ resps) →
        fetch_notion_records resps ≠ some (FetchOutcome.success recs))
    ∧ (∀ (script : List QueryResult) (acc recs : List String),
        lrFetchRecords script acc = some (some recs) →
        ∃ d, QueryResult.data d ∈ script ∧
          (d.hasResults = false ∨ d.hasMore = false))
    ∧ (∀ (rest : List QueryResult) (acc : List String),
        lrFetchRecords (QueryResult.raise :: rest) acc = some none) := by
  refine ⟨?_, ?_, ?_⟩
  · intro resps recs hterm heq
    unfold fetch_notion_records at heq
    rw [Option.map_eq_some'] at heq
    obtain ⟨x, hx, hout⟩ := heq
    cases hb : x.1 with
    | true => rw [hb] at hout; simp at hout
    | false =>
      rw [hb] at hout
      simp at hout
      have hx2 : x = (false, recs) := by
        cases x
        simp_all
      rw [hx2] at hx
      exact fetchLoop_no_terminal resps hterm 0 [] recs hx
  · intro script
    induction script with
    | nil => intro acc recs h; exact absurd h (by simp [lrFetchRecords])
    | cons q rest ih =>
      intro acc recs h
      cases q with
      | raise =>
        rw [lrFetchRecords] at h
        exact absurd (Option.some.inj h) (by simp)
      | data d =>
        rw [lrFetchRecords] at h
        by_cases h1 : d.hasResults
        · rw [if_neg (by simp [h1])] at h
          by_cases h2 : d.hasMore
          · rw [if_neg (by simp [h2])] at h
            obtain ⟨d', hd1, hd2⟩ := ih _ _ h
            exact ⟨d', List.mem_cons_of_mem _ hd1, hd2⟩
          · exact ⟨d, List.mem_cons_self _ _,
              Or.inr (Bool.not_eq_true _ ▸ eq_false_of_ne_true h2)⟩
        · exact ⟨d, List.mem_cons_self _ _,
            Or.inl (Bool.not_eq_true _ ▸ eq_false_of_ne_true h1)⟩
  · intro rest acc
    rfl

/-- Witness for the amended C2: a script consisting of one non-retryable
HTTP error contains no terminal page, so the fp-sync fetch cannot
return a record set (it aborts). -/
theorem C2_completeness_or_abort_witness :
    fetch_notion_records [NotionResp.httpErr] ≠ some (FetchOutcome.success []) :=
  C2_completeness_or_abort_amended.1 [NotionResp.httpErr] []
    (by intro rs c hmem; simp at hmem)

/-- A scripted response to one mutation request (POST create or PATCH
update): HTTP 429 with a Retry-After, success, a non-retryable HTTP
error, a JSON decode error, or another exception. -/
inductive MutResp where
  | rate (retryAfter : Nat)
  | ok
  | httpErr
  | jsonErr
  | otherErr
deriving DecidableEq

/-- The retry loop of `insert_into_notion` in fp-sync-to-notion.py:
`while retry_attempts <= max_retries (= 5)`, POST once; on 429 sleep
and loop with `retry_attempts + 1`; on success return the body; on any
other failure break. Returns (success, number of requests issued), or
`none` if the response script ran out. -/
def fpInsertLoop (resps : List MutResp) (retry_attempts : Nat) :
    Option (Bool × Nat) :=
  if retry_attempts > 5 then some (false, 0)
  else
    match resps with
    | [] => none
    | r :: rest =>
      match r with
      | MutResp.rate _ =>
          (fpInsertLoop rest (retry_attempts + 1)).map (fun x => (x.1, x.2 + 1))
      | MutResp.ok => some (true, 1)
      | MutResp.httpErr => some (false, 1)
      | MutResp.jsonErr => some (false, 1)
      | MutResp.otherErr => some (false, 1)

/-- `insert_into_notion` from fp-sync-to-notion.py (retry state starts
at zero). -/
def insert_into_notion (resps : List MutResp) : Option (Bool × Nat) :=
  fpInsertLoop resps 0

/-- `update_notion_record` from fp-sync-to-notion.py: a single PATCH
with no retry of any kind — every non-2xx status (including 429) is
caught, logged and turned into a `None` return. Returns (success,
number of requests issued = 1), or `none` if the script is empty. -/
def fp_update_notion_record : List MutResp → Option (Bool × Nat)
  | [] => none
  | r :: _ =>
      some ((match r with | MutResp.ok => true | _ => false), 1)

/-- `update_notion_record` from users-sync-to-notion.py: also a single
PATCH with no retry (a non-ok status is printed and yields `None`). -/
def users_update_notion_record : List MutResp → Option (Bool × Nat)
  | [] => none
  | r :: _ =>
      some ((match r with | MutResp.ok => true | _ => false), 1)

/-- `insert_into_notion` from users-sync-to-notion.py: a single POST
with no retry. -/
def users_insert_into_notion : List MutResp → Option (Bool × Nat)
  | [] => none
  | r :: _ =>
      some ((match r with | MutResp.ok => true | _ => false), 1)

/-- C6 is false on the code: fp-sync's `update_notion_record` is not
retried even on an explicit 429 rate-limit signal — one request is
issued and the call fails, although the scripted next response shows a
retry would have succeeded. -/
theorem C6_update_no_retry_counterexample :
    fp_update_notion_record [MutResp.rate 1, MutResp.ok] = some (false, 1)
    ∧ insert_into_notion [MutResp.rate 1, MutResp.ok] = some (true, 2) := by
  refine ⟨rfl, rfl⟩

/-- The fp-sync insert loop issues at most `6 - retry_attempts` requests
when entered with `retry_attempts ≤ 6`. -/
theorem fpInsertLoop_bound (resps : List MutResp) :
    ∀ a, a ≤ 6 → ∀ s n, fpInsertLoop resps a = some (s, n) → n + a ≤ 6 := by
  induction resps with
  | nil =>
    intro a ha s n h
    rw [fpInsertLoop.eq_def] at h
    by_cases hb : a > 5
    · rw [if_pos hb] at h
      obtain ⟨_, h2⟩ := Prod.mk.inj (Option.some.inj h)
      omega
    · rw [if_neg hb] at h
      exact absurd h (by simp)
  | cons r rest ih =>
    intro a ha s n h
    rw [fpInsertLoop.eq_def] at h
    by_cases hb : a > 5
    · rw [if_pos hb] at h
      obtain ⟨_, h2⟩ := Prod.mk.inj (Option.some.inj h)
      omega
    · rw [if_neg hb] at h
      cases r with
      | rate t =>
        simp only [Option.map_eq_some'] at h
        obtain ⟨x, hx, hxe⟩ := h
        have := ih (a + 1) (by omega) x.1 x.2 (by rw [hx])
        obtain ⟨_, h2⟩ := Prod.mk.inj hxe
        omega
      | ok =>
        obtain ⟨_, h2⟩ := Prod.mk.inj (Option.some.inj h)
        omega
      | httpErr =>
        obtain ⟨_, h2⟩ := Prod.mk.inj (Option.some.inj h)
        omega
      | jsonErr =>
        obtain ⟨_, h2⟩ := Prod.mk.inj (Option.some.inj h)
        omega
      | otherErr =>
        obtain ⟨_, h2⟩ := Prod.mk.inj (Option.some.inj h)
        omega

/-- C6 amended: only fp-sync's `insert_into_notion` retries, and only on
HTTP 429 — a creation issues at most 6 requests in total, a creation
whose first response is anything other than 429 issues exactly one
request, more than one request implies the first response was a 429,
and both update calls (fp-sync and users-sync) and users-sync's insert
issue exactly one request regardless of the response. -/
theorem C6_retry_policy_amended :
    (∀ resps s n, insert_into_notion resps = some (s, n) → n ≤ 6)
    ∧ (∀ (r : MutResp) rest, (∀ t, r ≠ MutResp.rate t) →
        ∃ s, insert_into_notion (r :: rest) = some (s, 1))
    ∧ (∀ resps a s n, fpInsertLoop resps a = some (s, n) → 2 ≤ n →
        ∃ t rest, resps = MutResp.rate t :: rest)
    ∧ (∀ resps s n, fp_update_notion_record resps = some (s, n) → n = 1)
    ∧ (∀ resps s n, users_update_notion_record resps = some (s, n) → n = 1)
    ∧ (∀ resps s n, users_insert_into_notion resps = some (s, n) → n = 1) := by
  refine ⟨?_, ?_, ?_, ?_, ?_, ?_⟩
  · intro resps s n h
    have := fpInsertLoop_bound resps 0 (by omega) s n h
    omega
  · intro r rest hnr
    cases r with
    | rate t => exact absurd rfl (hnr t)
    | ok => exact ⟨true, rfl⟩
    | httpErr => exact ⟨false, rfl⟩
    | jsonErr => exact ⟨false, rfl⟩
    | otherErr => exact ⟨false, rfl⟩
  · intro resps a s n h hn
    rw [fpInsertLoop.eq_def] at h
    by_cases hb : a > 5
    · rw [if_pos hb] at h
      obtain ⟨_, h2⟩ := Prod.mk.inj (Option.some.inj h)
      omega
    · rw [if_neg hb] at h
      cases resps with
      | nil => exact absurd h (by simp)
      | cons r rest =>
        cases r with
        | rate t => exact ⟨t, rest, rfl⟩
        | ok =>
          obtain ⟨_, h2⟩ := Prod.mk.inj (Option.some.inj h)
          omega
        | httpErr =>
          obtain ⟨_, h2⟩ := Prod.mk.inj (Option.some.inj h)
          omega
        | jsonErr =>
          obtain ⟨_, h2⟩ := Prod.mk.inj (Option.some.inj h)
          omega
        | otherErr =>
          obtain ⟨_, h2⟩ := Prod.mk.inj (Option.some.inj h)
          omega
  · intro resps s n h
    cases resps with
    | nil => exact absurd h (by simp [fp_update_notion_record])
    | cons r rest =>
      exact (Prod.mk.inj (Option.some.inj h)).2.symm
  · intro resps s n h
    cases resps with
    | nil => exact absurd h (by simp [users_update_notion_record])
    | cons r rest =>
      exact (Prod.mk.inj (Option.some.inj h)).2.symm
  · intro resps s n h
    cases resps with
    | nil => exact absurd h (by simp [users_insert_into_notion])
    | cons r rest =>
      exact (Prod.mk.inj (Option.some.inj h)).2.symm

/-- Witness for the amended C6: a creation answered 429 six times in a
row exhausts the bound with exactly 6 requests, and a creation answered
with a plain HTTP error issues exactly one request. -/
theorem C6_retry_policy_witness :
    insert_into_notion
      [MutResp.rate 1, MutResp.rate 1, MutResp.rate 1, MutResp.rate 1,
       MutResp.rate 1, MutResp.rate 1] = some (false, 6)
    ∧ (6 : Nat) ≤ 6
    ∧ ∃ s, insert_into_notion [MutResp.httpErr] = some (s, 1) :=
  ⟨rfl,
   C6_retry_policy_amended.1
     [MutResp.rate 1, MutResp.rate 1, MutResp.rate 1, MutResp.rate 1,
      MutResp.rate 1, MutResp.rate 1] false 6 rfl,
   C6_retry_policy_amended.2.1 MutResp.httpErr []
     (fun t h => by simp at h)⟩

/-- Python `split(', ')` over a character list: cut at every occurrence
of the two-character separator, left to right, non-overlapping. The
second argument accumulates the current fragment in reverse. -/
def splitCommaSpace : List Char → List Char → List (List Char)
  | [], cur => [cur.reverse]
  | ',' :: ' ' :: cs, cur => cur.reverse :: splitCommaSpace cs []
  | c :: cs, cur => splitCommaSpace cs (c :: cur)

/-- Python `record['Category'].split(', ')`. -/
def pySplitCommaSpace (s : String) : List String :=
  (splitCommaSpace s.data []).map String.mk

/-- The Category multi_select list built in both `insert_into_notion`
and `update_notion_record` of fp-sync-to-notion.py: split the
comma-joined value on `', '`, strip each element, keep (in order, with
repeats) the non-empty ones. -/
def buildCategoryMultiSelect (cat : String) : List String :=
  (pySplitCommaSpace cat).filterMap
    (fun category =>
      if pyStrip category = "" then none else some (pyStrip category))

/-- C8 is false on the code: the split keeps duplicates (no collapse to
a set), and the only comparison applied to comma-joined values — the
users-sync `chair_email` comparison via `values_are_equal` — is a plain
string comparison, so equal element sets in different orders compare
unequal. -/
theorem C8_multivalue_counterexample :
    buildCategoryMultiSelect "A, A" = ["A", "A"]
    ∧ buildCategoryMultiSelect "A, A" ≠ ["A"]
    ∧ values_are_equal (PyVal.str "a@x, b@y") (PyVal.str "b@y, a@x") = false := by
  decide

/-- Generic helper: a filterMap that keeps exactly the elements
satisfying a predicate has the same length as the filter. -/
theorem length_filterMap_ite {α β : Type} (l : List α) (p : α → Bool)
    (f : α → β) :
    (l.filterMap (fun a => if p a then some (f a) else none)).length
      = (l.filter p).length := by
  induction l with
  | nil => rfl
  | cons a rest ih =>
    by_cases h : p a
    · simp [List.filterMap_cons, List.filter_cons, h, ih]
    · simp [List.filterMap_cons, List.filter_cons, h, ih]

/-- C8 amended: multi-valued Category values are split on the separator
and the elements stripped, with empty elements dropped — but only when
BUILDING the mutation payload: the result is an ordered list whose
membership is exactly the non-empty stripped fragments and whose length
preserves every repeated element (no set collapse); and comparison of
comma-joined fields is plain whole-string comparison of the stripped
values. -/
theorem C8_multivalue_amended :
    (∀ cat c, c ∈ buildCategoryMultiSelect cat ↔
        ∃ t ∈ pySplitCommaSpace cat, pyStrip t = c ∧ c ≠ "")
    ∧ (∀ cat, (buildCategoryMultiSelect cat).length
        = ((pySplitCommaSpace cat).filter (fun t => !(pyStrip t == ""))).length)
    ∧ (∀ a b : String, values_are_equal (PyVal.str a) (PyVal.str b)
        = (pyStrip a == pyStrip b)) := by
  refine ⟨?_, ?_, ?_⟩
  · intro cat c
    unfold buildCategoryMultiSelect
    rw [List.mem_filterMap]
    constructor
    · rintro ⟨t, hmem, hf⟩
      by_cases h : pyStrip t = ""
      · rw [if_pos h] at hf
        exact absurd hf (by simp)
      · rw [if_neg h] at hf
        exact ⟨t, hmem, Option.some.inj hf, (Option.some.inj hf) ▸ h⟩
    · rintro ⟨t, hmem, hst, hne⟩
      refine ⟨t, hmem, ?_⟩
      rw [if_neg (hst ▸ hne), hst]
  · intro cat
    have hfun :
        (fun category => if pyStrip category = "" then none
          else some (pyStrip category))
        = (fun a => if !(pyStrip a == "") then some (pyStrip a) else none) := by
      funext t
      by_cases h : pyStrip t = "" <;> simp [h]
    unfold buildCategoryMultiSelect
    rw [hfun]
    exact length_filterMap_ite (pySplitCommaSpace cat)
      (fun t => !(pyStrip t == "")) pyStrip
  · intro a b
    rfl

/-- Witness for the amended C8: the stripped fragment `A` of `A, B` is
an element of the built multi_select list. -/
theorem C8_multivalue_witness :
    "A" ∈ buildCategoryMultiSelect "A, B" :=
  (C8_multivalue_amended.1 "A, B" "A").mpr
    ⟨"A", by decide, by decide, by decide⟩

/-- The relation key format of link-records.py:
`f"{program['id']},{faculty_id}"`. -/
def relationKey (programId facultyId : String) : String :=
  programId ++ "," ++ facultyId

/-- A page of the programs database as link-records.py reads it: the
page id and the first `email` rich_text fragment (`none` when absent). -/
structure ProgramPage where
  pid : String
  email : Option String
deriving DecidableEq

/-- The state link-records.py `main` threads through its matching loop:
the in-memory relation set (initialised from the ledger file), the
lines appended to the ledger during the run, the PATCH requests issued,
and `new_match_count`. -/
structure LinkState where
  relations : List String
  ledger : List String
  requests : List (String × String)
  new_match_count : Nat
deriving DecidableEq

/-- One iteration of the matching loop of link-records.py `main`:
skip programs without an email or without a faculty match; skip pairs
already in the relation set; otherwise issue the update request and,
only when it returned HTTP 200, count the match, add the key to the
set and append it to the ledger. -/
def linkStep (femail : String → Option String)
    (respOk : String → String → Bool) (st : LinkState) (p : ProgramPage) :
    LinkState :=
  match p.email with
  | none => st
  | some e0 =>
    match femail (pyLower (pyStrip e0)) with
    | none => st
    | some faculty_id =>
      if relationKey p.pid faculty_id ∈ st.relations then st
      else if respOk p.pid faculty_id then
        { relations := st.relations ++ [relationKey p.pid faculty_id],
          ledger := st.ledger ++ [relationKey p.pid faculty_id],
          requests := st.requests ++ [(p.pid, faculty_id)],
          new_match_count := st.new_match_count + 1 }
      else
        { st with requests := st.requests ++ [(p.pid, faculty_id)] }

/-- The whole matching loop of link-records.py `main`, over the fetched
program pages, from the relation set loaded at startup. -/
def runLink (femail : String → Option String)
    (respOk : String → String → Bool) (init : List String)
    (progs : List ProgramPage) : LinkState :=
  progs.foldl (linkStep femail respOk) (LinkState.mk init [] [] 0)

/-- Exhaustive description of one `linkStep`: either the state is
unchanged, or a request was issued for a pair whose key was not yet in
the relation set, recorded on success and merely issued on failure. -/
theorem linkStep_cases (femail : String → Option String)
    (respOk : String → String → Bool) (st : LinkState) (p : ProgramPage) :
    linkStep femail respOk st p = st ∨
    ∃ e0 fid, p.email = some e0 ∧ femail (pyLower (pyStrip e0)) = some fid ∧
      relationKey p.pid fid ∉ st.relations ∧
      ((respOk p.pid fid = true ∧
        linkStep femail respOk st p =
          { relations := st.relations ++ [relationKey p.pid fid],
            ledger := st.ledger ++ [relationKey p.pid fid],
            requests := st.requests ++ [(p.pid, fid)],
            new_match_count := st.new_match_count + 1 }) ∨
       (respOk p.pid fid = false ∧
        linkStep femail respOk st p =
          { st with requests := st.requests ++ [(p.pid, fid)] })) := by
  cases he : p.email with
  | none => exact Or.inl (by simp [linkStep, he])
  | some e0 =>
    cases hf : femail (pyLower (pyStrip e0)) with
    | none => exact Or.inl (by simp [linkStep, he, hf])
    | some fid =>
      by_cases hk : relationKey p.pid fid ∈ st.relations
      · exact Or.inl (by simp [linkStep, he, hf, hk])
      · refine Or.inr ⟨e0, fid, rfl, hf, hk, ?_⟩
        cases hr : respOk p.pid fid with
        | true => exact Or.inl ⟨rfl, by simp [linkStep, he, hf, hk, hr]⟩
        | false => exact Or.inr ⟨rfl, by simp [linkStep, he, hf, hk, hr]⟩

/-- Generic fold invariance. -/
theorem foldl_inv {α σ : Type} (f : σ → α → σ) (P : σ → Prop)
    (hstep : ∀ s a, P s → P (f s a)) :
    ∀ (l : List α) (s : σ), P s → P (l.foldl f s) := by
  intro l
  induction l with
  | nil => intro s hs; exact hs
  | cons a rest ih => intro s hs; exact ih _ (hstep s a hs)

/-- Invariant: every line written to the ledger names a pair whose
update request was issued and returned 200. -/
def ledgerInv (respOk : String → String → Bool) (st : LinkState) : Prop :=
  ∀ key ∈ st.ledger, ∃ pp fid, key = relationKey pp fid ∧
    respOk pp fid = true ∧ (pp, fid) ∈ st.requests

/-- Invariant: a pair whose key is in the relation set has not been —
and will not be — requested. -/
def pairAbsentInv (pp fid : String) (st : LinkState) : Prop :=
  relationKey pp fid ∈ st.relations ∧ (pp, fid) ∉ st.requests

/-- Invariant: a pair whose updates succeed is requested at most once,
and once requested its key is in the relation set. -/
def pairOnceInv (pp fid : String) (st : LinkState) : Prop :=
  st.requests.count (pp, fid) ≤ 1 ∧
    ((pp, fid) ∈ st.requests → relationKey pp fid ∈ st.relations)

theorem linkStep_ledgerInv (femail : String → Option String)
    (respOk : String → String → Bool) (st : LinkState) (p : ProgramPage)
    (h : ledgerInv respOk st) :
    ledgerInv respOk (linkStep femail respOk st p) := by
  rcases linkStep_cases femail respOk st p with heq | ⟨e0, fid, _, _, _, hcase⟩
  · rw [heq]; exact h
  · rcases hcase with ⟨hr, heq⟩ | ⟨_, heq⟩
    · rw [heq]
      intro key hkey
      simp only [List.mem_append, List.mem_singleton] at hkey
      rcases hkey with hkey | hkey
      · obtain ⟨pp, f2, h1, h2, h3⟩ := h key hkey
        exact ⟨pp, f2, h1, h2, List.mem_append_left _ h3⟩
      · subst hkey
        exact ⟨p.pid, fid, rfl, hr,
          List.mem_append_right _ (List.mem_singleton.mpr rfl)⟩
    · rw [heq]
      intro key hkey
      obtain ⟨pp, f2, h1, h2, h3⟩ := h key hkey
      exact ⟨pp, f2, h1, h2, List.mem_append_left _ h3⟩

theorem linkStep_pairAbsentInv (femail : String → Option String)
    (respOk : String → String → Bool) (pp fid : String) (st : LinkState)
    (p : ProgramPage) (h : pairAbsentInv pp fid st) :
    pairAbsentInv pp fid (linkStep femail respOk st p) := by
  obtain ⟨hrel, hreq⟩ := h
  rcases linkStep_cases femail respOk st p with heq | ⟨e0, fid2, _, _, hk, hcase⟩
  · rw [heq]; exact ⟨hrel, hreq⟩
  · have hne : (p.pid, fid2) ≠ (pp, fid) := by
      intro hpe
      obtain ⟨h1, h2⟩ := Prod.mk.inj hpe
      rw [h1, h2] at hk
      exact hk hrel
    rcases hcase with ⟨_, heq⟩ | ⟨_, heq⟩
    · rw [heq]
      refine ⟨List.mem_append_left _ hrel, ?_⟩
      intro hmem
      simp only [List.mem_append, List.mem_singleton] at hmem
      rcases hmem with hmem | hmem
      · exact hreq hmem
      · exact hne hmem.symm
    · rw [heq]
      refine ⟨hrel, ?_⟩
      intro hmem
      simp only [List.mem_append, List.mem_singleton] at hmem
      rcases hmem with hmem | hmem
      · exact hreq hmem
      · exact hne hmem.symm

theorem linkStep_pairOnceInv (femail : String → Option String)
    (respOk : String → String → Bool) (pp fid : String)
    (hro : respOk pp fid = true) (st : LinkState) (p : ProgramPage)
    (h : pairOnceInv pp fid st) :
    pairOnceInv pp fid (linkStep femail respOk st p) := by
  obtain ⟨hcount, hmemrel⟩ := h
  rcases linkStep_cases femail respOk st p with heq | ⟨e0, fid2, _, _, hk, hcase⟩
  · rw [heq]; exact ⟨hcount, hmemrel⟩
  · by_cases hpair : (p.pid, fid2) = (pp, fid)
    · obtain ⟨h1, h2⟩ := Prod.mk.inj hpair
      rcases hcase with ⟨hr, heq⟩ | ⟨hr, heq⟩
      · have hnotmem : (pp, fid) ∉ st.requests := by
          intro hm
          rw [h1, h2] at hk
          exact hk (hmemrel hm)
        rw [heq]
        constructor
        · simp only [List.count_append]
          rw [List.count_eq_zero.mpr hnotmem]
          simp [h1, h2]
        · intro _
          exact List.mem_append_right _
            (by rw [h1, h2]; exact List.mem_singleton.mpr rfl)
      · rw [h1, h2, hro] at hr
        exact absurd hr (by simp)
    · have hne2 : (pp, fid) ∉ [(p.pid, fid2)] := by
        intro hm
        rw [List.mem_singleton] at hm
        exact hpair hm.symm
      rcases hcase with ⟨_, heq⟩ | ⟨_, heq⟩
      · rw [heq]
        constructor
        · simp only [List.count_append]
          rw [List.count_eq_zero.mpr hne2]
          omega
        · intro hmem
          simp only [List.mem_append, List.mem_singleton] at hmem
          rcases hmem with hmem | hmem
          · exact List.mem_append_left _ (hmemrel hmem)
          · exact absurd hmem.symm hpair
      · rw [heq]
        constructor
        · simp only [List.count_append]
          rw [List.count_eq_zero.mpr hne2]
          omega
        · intro hmem
          simp only [List.mem_append, List.mem_singleton] at hmem
          rcases hmem with hmem | hmem
          · exact hmemrel hmem
          · exact absurd hmem.symm hpair

/-- Concrete program page for the C10 counterexample. -/
def lrProgP : ProgramPage := ProgramPage.mk "p1" (some "a@x")

/-- Concrete faculty email map for the C10 counterexample. -/
def lrFemailEx : String → Option String :=
  fun e => if e = "a@x" then some "F" else none

/-- Concrete always-failing update responder for C10. -/
def lrRespFail : String → String → Bool := fun _ _ => false

/-- C10 is false on the code: when the same program page occurs twice in
the fetched list and its relation update fails, the pair is requested
TWICE in one run — a failed pair is not recorded, so nothing suppresses
the second attempt. -/
theorem C10_duplicate_resend_counterexample :
    (runLink lrFemailEx lrRespFail [] [lrProgP, lrProgP]).requests
      = [("p1", "F"), ("p1", "F")]
    ∧ (runLink lrFemailEx lrRespFail [] [lrProgP, lrProgP]).requests.count
        ("p1", "F") = 2 := by
  decide

/-- C10 amended: a ledger line is appended only for a pair whose update
request returned HTTP 200; a pair whose key was loaded from the ledger
at startup is never requested; and a pair whose updates succeed is
requested at most once per run. (A pair whose update FAILS is not
recorded and may be re-requested if the same program page occurs again
in the fetched list.) -/
theorem C10_ledger_invariants_amended :
    (∀ femail respOk init progs,
        ∀ key ∈ (runLink femail respOk init progs).ledger,
          ∃ pp fid, key = relationKey pp fid ∧ respOk pp fid = true ∧
            (pp, fid) ∈ (runLink femail respOk init progs).requests)
    ∧ (∀ femail respOk init progs pp fid,
        relationKey pp fid ∈ init →
        (pp, fid) ∉ (runLink femail respOk init progs).requests)
    ∧ (∀ femail respOk init progs pp fid, respOk pp fid = true →
        (runLink femail respOk init progs).requests.count (pp, fid) ≤ 1) := by
  refine ⟨?_, ?_, ?_⟩
  · intro femail respOk init progs
    exact foldl_inv (linkStep femail respOk) (ledgerInv respOk)
      (fun s a hs => linkStep_ledgerInv femail respOk s a hs) progs
      (LinkState.mk init [] [] 0)
      (fun key hkey => absurd hkey (List.not_mem_nil key))
  · intro femail respOk init progs pp fid hinit
    exact (foldl_inv (linkStep femail respOk) (pairAbsentInv pp fid)
      (fun s a hs => linkStep_pairAbsentInv femail respOk pp fid s a hs) progs
      (LinkState.mk init [] [] 0)
      ⟨hinit, List.not_mem_nil _⟩).2
  · intro femail respOk init progs pp fid hro
    exact (foldl_inv (linkStep femail respOk) (pairOnceInv pp fid)
      (fun s a hs => linkStep_pairOnceInv femail respOk pp fid hro s a hs) progs
      (LinkState.mk init [] [] 0)
      ⟨by simp, fun hm => absurd hm (List.not_mem_nil _)⟩).1

/-- Witness for the amended C10: a pair preloaded from the ledger file
is never requested during the run. -/
theorem C10_ledger_invariants_witness :
    ("p1", "F") ∉ (runLink lrFemailEx lrRespFail ["p1,F"] []).requests :=
  C10_ledger_invariants_amended.2.1 lrFemailEx lrRespFail ["p1,F"] [] "p1" "F"
    (by decide)
